import Mathlib

/-!
# Verification of the Availability Scheduling Engine

Shallow embedding of the scheduling core of the `ai-productivity-agent`
repository (`src/server/services/freeTimeDetector.js` and the slot-search /
time-parsing portions of `src/server/server.js`), together with proofs of the
testable properties stated for it.

Modelling conventions, used uniformly below:

* Instants are integers counting **minutes** in the process's civil timezone;
  a calendar date `d` (a `YYYY-MM-DD` string in the source) is the integer
  day number, so the instant of its local midnight is `d * 1440`.
* The application pins one civil timezone, `Australia/Sydney` (UTC+10/+11,
  i.e. *ahead of* UTC).  JavaScript parses a date-only string `YYYY-MM-DD`
  as **UTC midnight**; in a timezone ahead of UTC that instant falls on the
  same civil day, which `jsParseDateOnlyMs` reflects with the fixed offset
  `tzOffsetMs`.  Where the source mixes `Date` millisecond arithmetic with
  `Math.round` (the session-count planner), the embedding keeps the exact
  integer **millisecond** computation so rounding behaves as in the source.
* JavaScript `Math.round`, `Math.ceil`, `||`-defaulting and truthiness tests
  are modelled by the explicit helpers `jsRoundDiv`, `jsCeilDiv`, `jsOrNat`,
  `jsOrStr`, `jsTruthyNat`.
* Loops without `break` become `List.map` / `List.filterMap` over the exact
  iteration grid; loops with `break`/early `return` become structural
  recursions that mirror the loop body.
-/

/-! ## Interval model (`freeTimeDetector.js`, helper section) -/

/-- A calendar event as consumed by `isSlotFree`: the source skips events
where `startDateTime` or `endDateTime` is absent, hence the `Option`s.
Instants are civil minutes. -/
structure CalEvent where
  startDateTime : Option Int
  endDateTime : Option Int
deriving DecidableEq, Repr

/-- `doTimesOverlap` (freeTimeDetector.js:96-100): half-open overlap test
`!(end1 <= start2 || start1 >= end2)`. -/
def doTimesOverlap (start1 end1 start2 end2 : Int) : Bool :=
  !(decide (end1 ≤ start2) || decide (start1 ≥ end2))

/-- `isTooLate` (freeTimeDetector.js:79-86): a slot is rejected when its
absolute start is at or before `now` plus the 30-minute look-ahead buffer.
`now` is the clock value the search runs against, threaded explicitly. -/
def isTooLate (now date : Int) (startTime : Nat) : Bool :=
  decide (date * 1440 + (startTime : Int) ≤ now + 30)

/-- `isSlotFree` (freeTimeDetector.js:166-184): a slot on day `date` with
times given as minutes-since-midnight is free when it overlaps no event that
carries both endpoints. -/
def isSlotFree (date : Int) (startTime endTime : Nat) (calendarEvents : List CalEvent) : Bool :=
  calendarEvents.all fun event =>
    match event.startDateTime, event.endDateTime with
    | some eventStart, some eventEnd =>
        !doTimesOverlap (date * 1440 + (startTime : Int)) (date * 1440 + (endTime : Int))
          eventStart eventEnd
    | _, _ => true

/-- `FreeBlock`: the record pushed by `findFreeBlocks` (freeTimeDetector.js:221-227).
`startTime`/`endTime` are minutes since midnight (the source stores `HH:MM`
strings produced by `minutesToTime`, which reduces modulo 1440). -/
structure FreeBlock where
  date : Int
  startTime : Nat
  endTime : Nat
  slot : String
  durationMinutes : Nat
deriving DecidableEq, Repr

/-- Start minutes visited by the 30-minute grid walk of `findFreeBlocks`
(freeTimeDetector.js:205-231): `slotStart, slotStart+30, …` while
`current + dur ≤ slotEnd`.  Used only under the guard `dur ≤ slotEnd - slotStart`. -/
def gridStarts (slotStart slotEnd dur : Nat) : List Nat :=
  (List.range ((slotEnd - (slotStart + dur)) / 30 + 1)).map (fun k => slotStart + 30 * k)

/-- `findFreeBlocks` (freeTimeDetector.js:195-234).  The `while` loop has no
`break`, so it is rendered as a `filterMap` over the exact grid of candidate
start minutes; the body (past-buffer skip, freeness check, push) is verbatim. -/
def findFreeBlocks (now date : Int) (slotName : String) (slotStart slotEnd : Nat)
    (durationMinutes : Nat) (calendarEvents : List CalEvent) : List FreeBlock :=
  if (durationMinutes : Int) > (slotEnd : Int) - (slotStart : Int) then []
  else
    (gridStarts slotStart slotEnd durationMinutes).filterMap fun currentMinutes =>
      let startTime := currentMinutes % 1440
      let endTime := (currentMinutes + durationMinutes) % 1440
      if isTooLate now date startTime then none
      else if isSlotFree date startTime endTime calendarEvents then
        some ⟨date, startTime, endTime, slotName, durationMinutes⟩
      else none

/-! ### Basic facts about returned blocks -/

theorem findFreeBlocks_mem_props {now date : Int} {slotName : String}
    {slotStart slotEnd durationMinutes : Nat} {calendarEvents : List CalEvent}
    {b : FreeBlock}
    (hb : b ∈ findFreeBlocks now date slotName slotStart slotEnd durationMinutes calendarEvents) :
    b.date = date ∧ isTooLate now date b.startTime = false ∧
      isSlotFree date b.startTime b.endTime calendarEvents = true := by
  unfold findFreeBlocks at hb
  split at hb
  · simp at hb
  · rcases List.mem_filterMap.mp hb with ⟨current, _, hmap⟩
    by_cases hlate : isTooLate now date (current % 1440)
    · simp [hlate] at hmap
    · by_cases hfree : isSlotFree date (current % 1440)
        ((current + durationMinutes) % 1440) calendarEvents
      · simp [hlate, hfree] at hmap
        subst hmap
        exact ⟨rfl, by simp [hlate], hfree⟩
      · simp [hlate, hfree] at hmap

/-- C1: every slot returned by the Day-Part Grid Search (`findFreeBlocks`)
has a half-open range `[start, end)` that overlaps no busy interval in the
supplied event set (overlap being `!(end1 ≤ start2 || start1 ≥ end2)`),
where a busy interval is an event carrying both endpoints. -/
theorem findFreeBlocks_no_overlap (now date : Int) (slotName : String)
    (slotStart slotEnd durationMinutes : Nat) (calendarEvents : List CalEvent)
    (b : FreeBlock)
    (hb : b ∈ findFreeBlocks now date slotName slotStart slotEnd durationMinutes calendarEvents)
    (e : CalEvent) (he : e ∈ calendarEvents) (es ee : Int)
    (hes : e.startDateTime = some es) (hee : e.endDateTime = some ee) :
    doTimesOverlap (b.date * 1440 + (b.startTime : Int)) (b.date * 1440 + (b.endTime : Int))
      es ee = false := by
  obtain ⟨hdate, -, hfree⟩ := findFreeBlocks_mem_props hb
  unfold isSlotFree at hfree
  rw [List.all_eq_true] at hfree
  have h := hfree e he
  rw [hes, hee] at h
  simp only [Bool.not_eq_true'] at h
  rw [hdate]
  exact h

/-- Witness for C1 at a concrete input: day 0 is busy from 00:00 to 06:30,
and the 06:30–07:30 morning block the grid search returns does not overlap it. -/
theorem findFreeBlocks_no_overlap_witness :
    (⟨0, 390, 450, "morning", 60⟩ : FreeBlock) ∈
        findFreeBlocks 0 0 "morning" 360 720 60 [⟨some 0, some 390⟩] ∧
      doTimesOverlap (0 * 1440 + (390 : Int)) (0 * 1440 + (450 : Int)) 0 390 = false :=
  ⟨by decide,
    findFreeBlocks_no_overlap 0 0 "morning" 360 720 60 [⟨some 0, some 390⟩]
      ⟨0, 390, 450, "morning", 60⟩ (by decide) ⟨some 0, some 390⟩ (by decide) 0 390 rfl rfl⟩

/-! ## Ad-hoc slot finder (`server.js`, `findAvailableSlots`, lines 1205-1308)

The calendar read is external; the embedding takes the busy intervals, the
clock `now`, the work-hour window, and the day range as inputs, exactly the
data the loop consumes.  The cosmetic `label` field (a formatted string) is
omitted.  The loop carries an early `return slots.slice(0, 3)` once three
slots are collected, so it is rendered as a recursion with an accumulator. -/

/-- A busy interval as built at server.js:1224-1227 (civil minutes). -/
structure BusySlot where
  start : Int
  stop : Int
deriving DecidableEq, Repr

/-- A slot pushed at server.js:1288-1293 (ISO strings in the source; civil
minutes here). -/
structure AdhocSlot where
  start : Int
  stop : Int
deriving DecidableEq, Repr

/-- Body of the innermost check of `findAvailableSlots` (server.js:1255-1299):
reject past slots (`slotStart < now` — note: no 30-minute buffer here),
slots running past the work-hour end, and slots conflicting with a busy
interval (`slotStart < busy.end && slotEnd > busy.start`). -/
def adhocSlotCheck (now : Int) (workEnd : Nat) (duration_minutes : Nat)
    (busySlots : List BusySlot) (day : Int) (hour : Nat) (minute : Nat) : Option AdhocSlot :=
  let slotStart : Int := day * 1440 + (hour : Int) * 60 + (minute : Int)
  let slotEnd : Int := slotStart + (duration_minutes : Int)
  let slotEndHour : Int := (slotEnd.emod 1440) / 60
  let slotEndMinute : Int := slotEnd.emod 60
  let isBeyondWorkHours : Bool :=
    decide (slotEndHour > (workEnd : Int)) ||
      (decide (slotEndHour = (workEnd : Int)) && decide (slotEndMinute > 0))
  if slotStart < now then none
  else if isBeyondWorkHours then none
  else if busySlots.any (fun busy => decide (slotStart < busy.stop) && decide (slotEnd > busy.start))
    then none
  else some ⟨slotStart, slotEnd⟩

/-- The `(day, hour, minute)` triples the nested loops of `findAvailableSlots`
visit, in order: each day of the range, each work hour, minutes 0 and 30. -/
def adhocCandidates (startDay endDay : Int) (workStart workEnd : Nat) : List (Int × Nat × Nat) :=
  ((List.range ((endDay - startDay + 1).toNat)).map (fun k => startDay + (k : Int))).flatMap
    fun d => (List.range (workEnd - workStart)).flatMap
      fun i => [(d, workStart + i, 0), (d, workStart + i, 30)]

/-- Accumulating loop of `findAvailableSlots` with the early
`return slots.slice(0, 3)` once three slots are found (server.js:1296-1298). -/
def adhocLoop (now : Int) (workEnd duration_minutes : Nat) (busySlots : List BusySlot) :
    List (Int × Nat × Nat) → List AdhocSlot → List AdhocSlot
  | [], slots => slots
  | (d, h, m) :: rest, slots =>
    match adhocSlotCheck now workEnd duration_minutes busySlots d h m with
    | none => adhocLoop now workEnd duration_minutes busySlots rest slots
    | some s =>
      let slots' := slots ++ [s]
      if slots'.length ≥ 3 then slots'.take 3
      else adhocLoop now workEnd duration_minutes busySlots rest slots'

/-- `findAvailableSlots` (server.js:1205-1308), given its external inputs. -/
def findAvailableSlots (now : Int) (duration_minutes : Nat) (workStart workEnd : Nat)
    (busySlots : List BusySlot) (startDay endDay : Int) : List AdhocSlot :=
  adhocLoop now workEnd duration_minutes busySlots
    (adhocCandidates startDay endDay workStart workEnd) []

theorem adhocSlotCheck_start_ge_now {now : Int} {workEnd duration_minutes : Nat}
    {busySlots : List BusySlot} {d : Int} {h m : Nat} {s : AdhocSlot}
    (hs : adhocSlotCheck now workEnd duration_minutes busySlots d h m = some s) :
    now ≤ s.start := by
  unfold adhocSlotCheck at hs
  simp only [] at hs
  split at hs
  · exact absurd hs (by simp)
  · split at hs
    · exact absurd hs (by simp)
    · split at hs
      · exact absurd hs (by simp)
      · injection hs with hs
        subst hs
        dsimp only
        omega

theorem adhocLoop_start_ge_now {now : Int} {workEnd duration_minutes : Nat}
    {busySlots : List BusySlot} (cands : List (Int × Nat × Nat)) (acc : List AdhocSlot)
    (hacc : ∀ s ∈ acc, now ≤ s.start) :
    ∀ s ∈ adhocLoop now workEnd duration_minutes busySlots cands acc, now ≤ s.start := by
  induction cands generalizing acc with
  | nil => simpa [adhocLoop] using hacc
  | cons c rest ih =>
    obtain ⟨d, h, m⟩ := c
    intro s hs
    rw [adhocLoop] at hs
    rcases hcheck : adhocSlotCheck now workEnd duration_minutes busySlots d h m with - | s0
    · rw [hcheck] at hs
      exact ih acc hacc s hs
    · rw [hcheck] at hs
      have hacc' : ∀ t ∈ acc ++ [s0], now ≤ t.start := by
        intro t ht
        rcases List.mem_append.mp ht with ht | ht
        · exact hacc t ht
        · simp at ht
          subst ht
          exact adhocSlotCheck_start_ge_now hcheck
      by_cases hlen : (acc ++ [s0]).length ≥ 3
      · simp only [hlen, if_pos] at hs
        exact hacc' s (List.mem_of_mem_take hs)
      · simp only [hlen, if_neg, if_false] at hs
        exact ih (acc ++ [s0]) hacc' s hs

/-- C3 as stated is false: `findAvailableSlots` applies no 30-minute buffer.
With the clock at 09:10 on day 0 (minute 550), the slot starting 09:30
(minute 570 < 550 + 30) is returned. -/
theorem findAvailableSlots_buffer_counterexample :
    ∃ s ∈ findAvailableSlots 550 30 9 18 [] 0 0, s.start < 550 + 30 := by
  decide

/-- C3 amended: slots returned by the Day-Part Grid Search start strictly
later than `now + 30` minutes, but slots returned by the ad-hoc finder
`findAvailableSlots` are only guaranteed to start no earlier than `now`
itself — that search skips `slotStart < now` without any buffer. -/
theorem slot_search_past_buffer (now date : Int) (slotName : String)
    (slotStart slotEnd durationMinutes : Nat) (calendarEvents : List CalEvent)
    (duration_minutes workStart workEnd : Nat) (busySlots : List BusySlot)
    (startDay endDay : Int) :
    (∀ b ∈ findFreeBlocks now date slotName slotStart slotEnd durationMinutes calendarEvents,
        now + 30 < b.date * 1440 + (b.startTime : Int)) ∧
      (∀ s ∈ findAvailableSlots now duration_minutes workStart workEnd busySlots startDay endDay,
        now ≤ s.start) := by
  constructor
  · intro b hb
    obtain ⟨hdate, hlate, -⟩ := findFreeBlocks_mem_props hb
    unfold isTooLate at hlate
    rw [hdate]
    simpa using hlate
  · exact adhocLoop_start_ge_now _ [] (by simp)

/-- Witness for C3 (amended) at concrete inputs: the 06:30–07:30 grid block of
the C1 witness starts after `0 + 30`, and the first ad-hoc slot of the
counterexample scenario starts no earlier than 550. -/
theorem slot_search_past_buffer_witness :
    ((⟨0, 390, 450, "morning", 60⟩ : FreeBlock) ∈
        findFreeBlocks 0 0 "morning" 360 720 60 [⟨some 0, some 390⟩] ∧
      (⟨570, 600⟩ : AdhocSlot) ∈ findAvailableSlots 550 30 9 18 [] 0 0) ∧
      ((0 : Int) + 30 < 0 * 1440 + (390 : Int) ∧ (550 : Int) ≤ 570) :=
  ⟨⟨by decide, by decide⟩,
    (slot_search_past_buffer 0 0 "morning" 360 720 60 [⟨some 0, some 390⟩]
        30 9 18 [] 0 0).1 ⟨0, 390, 450, "morning", 60⟩ (by decide),
    (slot_search_past_buffer 550 0 "" 0 0 0 [] 30 9 18 [] 0 0).2
      ⟨570, 600⟩ (by decide)⟩

/-! ## JavaScript arithmetic and string helpers -/

/-- Fixed offset (ms) of the configured civil timezone (`Australia/Sydney`,
UTC+11 during DST) ahead of UTC.  Only its civil day matters below: any
offset in `[0, 24h)` makes a UTC-midnight instant fall on the same civil day. -/
def tzOffsetMs : Int := 39600000

/-- `new Date("YYYY-MM-DD")` parses to UTC midnight of day `d`; expressed in
civil milliseconds that instant is `d * 86400000 + tzOffsetMs`. -/
def jsParseDateOnlyMs (d : Int) : Int := d * 86400000 + tzOffsetMs

/-- `date.setHours(23, 59, 59, 999)`: end of the civil day containing `t` (ms). -/
def jsEndOfDayMs (t : Int) : Int := (Int.fdiv t 86400000) * 86400000 + 86399999

/-- `Math.round (num / den)` for `den > 0`: round half toward `+∞`,
computed exactly as `⌊(2·num + den) / (2·den)⌋`. -/
def jsRoundDiv (num den : Int) : Int := Int.fdiv (2 * num + den) (2 * den)

/-- `Math.ceil (num / den)` for `den > 0` on integers. -/
def jsCeilDiv (num den : Int) : Int := -(Int.fdiv (-num) den)

/-- `Math.ceil (a / b)` on nonnegative numbers (used for `Nat` counters). -/
def ceilNat (a b : Nat) : Nat := (a + b - 1) / b

/-- JavaScript `x || default` for an optional number (`0` is falsy). -/
def jsOrNat (x : Option Nat) (d : Nat) : Nat :=
  match x with
  | none => d
  | some 0 => d
  | some n => n

/-- JavaScript `x || default` for an optional string (`""` is falsy). -/
def jsOrStr (x : Option String) (d : String) : String :=
  match x with
  | none => d
  | some "" => d
  | some s => s

/-- JavaScript truthiness of an optional number. -/
def jsTruthyNat (x : Option Nat) : Bool :=
  match x with
  | none => false
  | some n => n ≠ 0

/-- `String.prototype.toLowerCase` (ASCII, as all strings compared here are). -/
def jsToLower (s : String) : String := String.mk (s.data.map Char.toLower)

/-- `String.prototype.includes`, over character lists. -/
def strIncludesAux (sub : List Char) : List Char → Bool
  | [] => sub.isEmpty
  | c :: t => List.isPrefixOf sub (c :: t) || strIncludesAux sub t

/-- `s.includes(sub)`. -/
def strIncludes (s sub : String) : Bool := strIncludesAux sub.data s.data

/-! ## Goal record and duration resolver -/

/-- The goal fields the engine reads (`deadline` as a civil day number,
`session_duration` in hours as in the source). -/
structure Goal where
  target_amount : Option Nat
  target_unit : Option String
  frequency : Option String
  deadline : Option Int
  time_preferences : List String
  max_sessions_per_day : Option Nat
  session_duration : Option Nat
  distribution_strategy : Option String
deriving DecidableEq, Repr

/-- Unit table of `calculateDurationMinutes` (freeTimeDetector.js:114-132). -/
def unitToMinutes (unit : String) : Option Nat :=
  if unit = "hour" ∨ unit = "hours" ∨ unit = "hr" ∨ unit = "hrs" then some 60
  else if unit = "minute" ∨ unit = "minutes" ∨ unit = "min" ∨ unit = "mins" then some 1
  else if unit = "km" ∨ unit = "kilometer" ∨ unit = "kilometers" then some 30
  else if unit = "mile" ∨ unit = "miles" then some 45
  else if unit = "page" ∨ unit = "pages" then some 2
  else if unit = "chapter" ∨ unit = "chapters" then some 30
  else none

/-- `calculateDurationMinutes` (freeTimeDetector.js:109-138). -/
def calculateDurationMinutes (goal : Goal) : Nat :=
  if ¬ (jsTruthyNat goal.target_amount ∧
        (goal.target_unit ≠ none ∧ goal.target_unit ≠ some "")) then 60
  else
    let unit := jsToLower (goal.target_unit.getD "")
    let multiplier := jsOrNat (unitToMinutes unit) 60
    goal.target_amount.getD 0 * multiplier

/-! ## Session Count Planner (`calculateEventCount`, freeTimeDetector.js:242-287) -/

def calculateEventCount (goal : Goal) (firstDate : Int) : Int :=
  match goal.frequency with
  | none => 1
  | some f =>
    let freq := jsToLower f
    let maxEvents : Int :=
      if freq = "daily" ∨ freq = "every day" then 28
      else if freq = "weekly" ∨ freq = "every week" then 4
      else if strIncludes freq "3" ∧ strIncludes freq "week" then 12
      else if strIncludes freq "2" ∧ strIncludes freq "week" then 8
      else 1
    match goal.deadline with
    | none => maxEvents
    | some dl =>
      let startMs := firstDate * 86400000
      let deadlineMs := jsEndOfDayMs (jsParseDateOnlyMs dl)
      let daysUntilDeadline := jsRoundDiv (deadlineMs - startMs) 86400000 + 1
      if daysUntilDeadline ≤ 0 then 1
      else
        let eventsBeforeDeadline : Int :=
          if freq = "daily" ∨ freq = "every day" then min maxEvents daysUntilDeadline
          else if freq = "weekly" ∨ freq = "every week" then
            min maxEvents (jsCeilDiv daysUntilDeadline 7)
          else if strIncludes freq "3" ∧ strIncludes freq "week" then
            min maxEvents (jsCeilDiv daysUntilDeadline 7 * 3)
          else if strIncludes freq "2" ∧ strIncludes freq "week" then
            min maxEvents (jsCeilDiv daysUntilDeadline 7 * 2)
          else maxEvents
        max 1 eventsBeforeDeadline

theorem calculateEventCount_ge_one (goal : Goal) (firstDate : Int) :
    1 ≤ calculateEventCount goal firstDate := by
  unfold calculateEventCount
  split
  · norm_num
  · split
    · simp only []
      split_ifs <;> norm_num
    · simp only []
      split_ifs <;> norm_num

/-- C8: for every goal (any frequency or none, any deadline, including one
earlier than the first candidate date) and every first candidate date, the
Session Count Planner returns at least 1. -/
theorem calculateEventCount_at_least_one (goal : Goal) (firstDate : Int) :
    1 ≤ calculateEventCount goal firstDate :=
  calculateEventCount_ge_one goal firstDate

/-! ## Recurring Date Generator (`getRecurringDates`, freeTimeDetector.js:298-384) -/

/-- `isBeforeDeadline` (freeTimeDetector.js:314-320): event-day midnight
compared against the end of the deadline's civil day (both in ms). -/
def isBeforeDeadline (deadline : Option Int) (d : Int) : Bool :=
  match deadline with
  | none => true
  | some dl => decide (d * 86400000 ≤ jsEndOfDayMs (jsParseDateOnlyMs dl))

/-- `Array.prototype.indexOf` returning `none` for `-1`. -/
def jsIndexOf (l : List Int) (a : Int) : Option Nat :=
  match l with
  | [] => none
  | x :: t => if x = a then some 0 else (jsIndexOf t a).map (· + 1)

/-- Daily branch (freeTimeDetector.js:322-331): take consecutive dates from
`startIndex`, at most `maxCount`, breaking at the first date past the deadline.
The fuel argument is the remaining iteration count `maxCount - i`. -/
def dailyLoop (validDates : List Int) (deadline : Option Int) : Nat → Nat → List Int
  | 0, _ => []
  | fuel + 1, idx =>
    if h : idx < validDates.length then
      if isBeforeDeadline deadline (validDates.get ⟨idx, h⟩) then
        validDates.get ⟨idx, h⟩ :: dailyLoop validDates deadline fuel (idx + 1)
      else []
    else []

/-- Weekly branch (freeTimeDetector.js:332-344): index steps by 7; an index
out of range is skipped silently (the source `for` keeps iterating). -/
def weeklyLoop (validDates : List Int) (deadline : Option Int) : Nat → Nat → List Int
  | 0, _ => []
  | fuel + 1, idx =>
    if h : idx < validDates.length then
      if isBeforeDeadline deadline (validDates.get ⟨idx, h⟩) then
        validDates.get ⟨idx, h⟩ :: weeklyLoop validDates deadline fuel (idx + 7)
      else []
    else weeklyLoop validDates deadline fuel (idx + 7)

/-- Inner session loop of the Nx-per-week branches
(freeTimeDetector.js:348-359 and 365-376): `mult` is the in-week index stride
(2 for 3x/week, 3 for 2x/week).  The boolean is true when the branch executed
its early `return dates` (past-deadline date). -/
def sessionsLoop (validDates : List Int) (deadline : Option Int)
    (maxCount startIndex week mult : Nat) : List Nat → List Int → List Int × Bool
  | [], dates => (dates, false)
  | s :: rest, dates =>
    if dates.length ≥ maxCount then (dates, false)
    else
      if h : startIndex + week * 7 + s * mult < validDates.length then
        if isBeforeDeadline deadline (validDates.get ⟨startIndex + week * 7 + s * mult, h⟩) then
          sessionsLoop validDates deadline maxCount startIndex week mult rest
            (dates ++ [validDates.get ⟨startIndex + week * 7 + s * mult, h⟩])
        else (dates, true)
      else sessionsLoop validDates deadline maxCount startIndex week mult rest dates

/-- Outer week loop of the Nx-per-week branches (freeTimeDetector.js:347-361
and 364-378): runs `ceil(maxCount / N)` weeks, stopping on the early return
or once `maxCount` dates are collected. -/
def weeksLoop (validDates : List Int) (deadline : Option Int)
    (maxCount startIndex mult : Nat) (sessions : List Nat) : Nat → Nat → List Int → List Int
  | 0, _, dates => dates
  | weeksLeft + 1, week, dates =>
    if (sessionsLoop validDates deadline maxCount startIndex week mult sessions dates).2 then
      (sessionsLoop validDates deadline maxCount startIndex week mult sessions dates).1
    else if (sessionsLoop validDates deadline maxCount startIndex week mult sessions dates).1.length
        ≥ maxCount then
      (sessionsLoop validDates deadline maxCount startIndex week mult sessions dates).1
    else
      weeksLoop validDates deadline maxCount startIndex mult sessions weeksLeft (week + 1)
        (sessionsLoop validDates deadline maxCount startIndex week mult sessions dates).1

/-- `getRecurringDates` (freeTimeDetector.js:298-384). -/
def getRecurringDates (frequency : Option String) (firstDate : Int)
    (validDates : List Int) (deadline : Option Int) (maxCount : Nat) : List Int :=
  match frequency with
  | none => [firstDate]
  | some f =>
    match jsIndexOf validDates firstDate with
    | none => [firstDate]
    | some startIndex =>
      if jsToLower f = "daily" ∨ jsToLower f = "every day" then
        dailyLoop validDates deadline maxCount startIndex
      else if jsToLower f = "weekly" ∨ jsToLower f = "every week" then
        weeklyLoop validDates deadline maxCount startIndex
      else if strIncludes (jsToLower f) "3" ∧ strIncludes (jsToLower f) "week" then
        weeksLoop validDates deadline maxCount startIndex 2 [0, 1, 2] (ceilNat maxCount 3) 0 []
      else if strIncludes (jsToLower f) "2" ∧ strIncludes (jsToLower f) "week" then
        weeksLoop validDates deadline maxCount startIndex 3 [0, 1] (ceilNat maxCount 2) 0 []
      else [firstDate]

/-- C4: for a daily goal whose deadline is six calendar days after the first
candidate date, the Session Count Planner returns **8**, not the 7 sessions
the specification (and the source's own comment, freeTimeDetector.js:262-263,
"Oct 9 to Oct 15 = 7 days") promises: `Math.round` already rounds the
`6 days + 23:59:59.999` difference **up** to 7, and the extra `+ 1` then
double-counts (the process timezone, `Australia/Sydney`, is ahead of UTC, so
the parsed deadline keeps its calendar day).  The Recurring Date Generator
does return exactly the 7 consecutive dates up to the deadline. -/
theorem daily_deadline_count_bug :
    calculateEventCount ⟨none, none, some "daily", some 6, [], none, none, none⟩ 0 = 8 ∧
      getRecurringDates (some "daily") 0 ((List.range 28).map Int.ofNat) (some 6) 8 =
        [0, 1, 2, 3, 4, 5, 6] := by
  constructor
  · decide
  · decide


/-! ### Deadline behaviour of the generator -/

theorem jsEndOfDay_parse (D : Int) :
    jsEndOfDayMs (jsParseDateOnlyMs D) = D * 86400000 + 86399999 := by
  unfold jsEndOfDayMs jsParseDateOnlyMs tzOffsetMs
  rw [Int.fdiv_eq_ediv _ (by norm_num)]
  omega

theorem isBeforeDeadline_none (d : Int) : isBeforeDeadline none d = true := rfl

theorem isBeforeDeadline_some_iff (D d : Int) :
    isBeforeDeadline (some D) d = true ↔ d ≤ D := by
  show decide (d * 86400000 ≤ jsEndOfDayMs (jsParseDateOnlyMs D)) = true ↔ d ≤ D
  rw [jsEndOfDay_parse]
  simp only [decide_eq_true_eq]
  omega

/-- `[]` is a prefix of every list. -/
theorem nilPre (l : List Int) : [] <+: l := ⟨l, rfl⟩

/-- Every list is a prefix of itself. -/
theorem selfPre (l : List Int) : l <+: l := ⟨[], List.append_nil l⟩

/-- `l` is a prefix of `l ++ t`. -/
theorem appendPre (l t : List Int) : l <+: l ++ t := ⟨t, rfl⟩

/-- Transitivity of the prefix order. -/
theorem preTrans {a b c : List Int} (h1 : a <+: b) (h2 : b <+: c) : a <+: c := by
  obtain ⟨t1, rfl⟩ := h1
  obtain ⟨t2, rfl⟩ := h2
  exact ⟨t1 ++ t2, (List.append_assoc a t1 t2).symm⟩

/-- Consing the same head preserves the prefix order. -/
theorem prefix_cons_cons {a : Int} {l1 l2 : List Int} (h : l1 <+: l2) :
    a :: l1 <+: a :: l2 := by
  obtain ⟨t, rfl⟩ := h
  exact ⟨t, rfl⟩

theorem dailyLoop_mem_before (vd : List Int) (dl : Option Int) :
    ∀ fuel idx, ∀ d ∈ dailyLoop vd dl fuel idx, isBeforeDeadline dl d = true := by
  intro fuel
  induction fuel with
  | zero => intro idx d hd; simp [dailyLoop] at hd
  | succ fuel ih =>
    intro idx d hd
    rw [dailyLoop] at hd
    by_cases h : idx < vd.length
    · rw [dif_pos h] at hd
      by_cases hb : isBeforeDeadline dl (vd.get ⟨idx, h⟩) = true
      · rw [if_pos hb] at hd
        rcases List.mem_cons.mp hd with h1 | h1
        · exact h1 ▸ hb
        · exact ih _ d h1
      · rw [if_neg hb] at hd
        simp at hd
    · rw [dif_neg h] at hd
      simp at hd

theorem dailyLoop_deadline_pre (vd : List Int) (D : Int) :
    ∀ fuel idx, dailyLoop vd (some D) fuel idx <+: dailyLoop vd none fuel idx := by
  intro fuel
  induction fuel with
  | zero => intro idx; exact selfPre []
  | succ fuel ih =>
    intro idx
    rw [dailyLoop, dailyLoop]
    by_cases h : idx < vd.length
    · rw [dif_pos h, dif_pos h, if_pos (isBeforeDeadline_none _)]
      by_cases hb : isBeforeDeadline (some D) (vd.get ⟨idx, h⟩) = true
      · rw [if_pos hb]
        exact prefix_cons_cons (ih (idx + 1))
      · rw [if_neg hb]
        exact nilPre _
    · rw [dif_neg h, dif_neg h]

theorem weeklyLoop_mem_before (vd : List Int) (dl : Option Int) :
    ∀ fuel idx, ∀ d ∈ weeklyLoop vd dl fuel idx, isBeforeDeadline dl d = true := by
  intro fuel
  induction fuel with
  | zero => intro idx d hd; simp [weeklyLoop] at hd
  | succ fuel ih =>
    intro idx d hd
    rw [weeklyLoop] at hd
    by_cases h : idx < vd.length
    · rw [dif_pos h] at hd
      by_cases hb : isBeforeDeadline dl (vd.get ⟨idx, h⟩) = true
      · rw [if_pos hb] at hd
        rcases List.mem_cons.mp hd with h1 | h1
        · exact h1 ▸ hb
        · exact ih _ d h1
      · rw [if_neg hb] at hd
        simp at hd
    · rw [dif_neg h] at hd
      exact ih _ d hd

theorem weeklyLoop_deadline_pre (vd : List Int) (D : Int) :
    ∀ fuel idx, weeklyLoop vd (some D) fuel idx <+: weeklyLoop vd none fuel idx := by
  intro fuel
  induction fuel with
  | zero => intro idx; exact selfPre []
  | succ fuel ih =>
    intro idx
    rw [weeklyLoop, weeklyLoop]
    by_cases h : idx < vd.length
    · rw [dif_pos h, dif_pos h, if_pos (isBeforeDeadline_none _)]
      by_cases hb : isBeforeDeadline (some D) (vd.get ⟨idx, h⟩) = true
      · rw [if_pos hb]
        exact prefix_cons_cons (ih (idx + 7))
      · rw [if_neg hb]
        exact nilPre _
    · rw [dif_neg h, dif_neg h]
      exact ih (idx + 7)

theorem sessionsLoop_acc_pre (vd : List Int) (dl : Option Int) (mc si wk m : Nat) :
    ∀ l : List Nat, ∀ dates : List Int,
      dates <+: (sessionsLoop vd dl mc si wk m l dates).1 := by
  intro l
  induction l with
  | nil => intro dates; exact selfPre dates
  | cons s rest ih =>
    intro dates
    rw [sessionsLoop]
    by_cases hl : dates.length ≥ mc
    · rw [if_pos hl]
    · rw [if_neg hl]
      by_cases h : si + wk * 7 + s * m < vd.length
      · rw [dif_pos h]
        by_cases hb : isBeforeDeadline dl (vd.get ⟨si + wk * 7 + s * m, h⟩) = true
        · rw [if_pos hb]
          exact preTrans (appendPre dates _) (ih _)
        · rw [if_neg hb]
      · rw [dif_neg h]
        exact ih dates

theorem sessionsLoop_mem (vd : List Int) (dl : Option Int) (mc si wk m : Nat) :
    ∀ l : List Nat, ∀ dates : List Int,
      (∀ x ∈ dates, isBeforeDeadline dl x = true) →
      ∀ x ∈ (sessionsLoop vd dl mc si wk m l dates).1, isBeforeDeadline dl x = true := by
  intro l
  induction l with
  | nil => intro dates hacc x hx; exact hacc x hx
  | cons s rest ih =>
    intro dates hacc x hx
    rw [sessionsLoop] at hx
    by_cases hl : dates.length ≥ mc
    · rw [if_pos hl] at hx
      exact hacc x hx
    · rw [if_neg hl] at hx
      by_cases h : si + wk * 7 + s * m < vd.length
      · rw [dif_pos h] at hx
        by_cases hb : isBeforeDeadline dl (vd.get ⟨si + wk * 7 + s * m, h⟩) = true
        · rw [if_pos hb] at hx
          refine ih _ ?_ x hx
          intro y hy
          rcases List.mem_append.mp hy with h1 | h1
          · exact hacc y h1
          · have hy2 : y = vd.get ⟨si + wk * 7 + s * m, h⟩ := by simpa using h1
            exact hy2 ▸ hb
        · rw [if_neg hb] at hx
          exact hacc x hx
      · rw [dif_neg h] at hx
        exact ih dates hacc x hx

theorem sessionsLoop_none_not_hard (vd : List Int) (mc si wk m : Nat) :
    ∀ l : List Nat, ∀ dates : List Int,
      (sessionsLoop vd none mc si wk m l dates).2 = false := by
  intro l
  induction l with
  | nil => intro dates; rfl
  | cons s rest ih =>
    intro dates
    rw [sessionsLoop]
    by_cases hl : dates.length ≥ mc
    · rw [if_pos hl]
    · rw [if_neg hl]
      by_cases h : si + wk * 7 + s * m < vd.length
      · rw [dif_pos h, if_pos (isBeforeDeadline_none _)]
        exact ih _
      · rw [dif_neg h]
        exact ih dates

theorem sessionsLoop_not_hard_eq (vd : List Int) (D : Int) (mc si wk m : Nat) :
    ∀ l : List Nat, ∀ dates : List Int,
      (sessionsLoop vd (some D) mc si wk m l dates).2 = false →
      sessionsLoop vd (some D) mc si wk m l dates = sessionsLoop vd none mc si wk m l dates := by
  intro l
  induction l with
  | nil => intro dates _; rfl
  | cons s rest ih =>
    intro dates hnh
    rw [sessionsLoop] at hnh
    rw [sessionsLoop, sessionsLoop]
    by_cases hl : dates.length ≥ mc
    · rw [if_pos hl] at hnh
      rw [if_pos hl, if_pos hl]
    · rw [if_neg hl] at hnh
      rw [if_neg hl, if_neg hl]
      by_cases h : si + wk * 7 + s * m < vd.length
      · rw [dif_pos h] at hnh
        rw [dif_pos h, dif_pos h, if_pos (isBeforeDeadline_none _)]
        by_cases hb : isBeforeDeadline (some D) (vd.get ⟨si + wk * 7 + s * m, h⟩) = true
        · rw [if_pos hb] at hnh
          rw [if_pos hb]
          exact ih _ hnh
        · rw [if_neg hb] at hnh
          simp at hnh
      · rw [dif_neg h] at hnh
        rw [dif_neg h, dif_neg h]
        exact ih dates hnh

theorem sessionsLoop_hard_pre (vd : List Int) (D : Int) (mc si wk m : Nat) :
    ∀ l : List Nat, ∀ dates r : List Int,
      sessionsLoop vd (some D) mc si wk m l dates = (r, true) →
      r <+: (sessionsLoop vd none mc si wk m l dates).1 := by
  intro l
  induction l with
  | nil =>
    intro dates r h
    rw [sessionsLoop] at h
    exact absurd (congrArg Prod.snd h) (by simp)
  | cons s rest ih =>
    intro dates r h
    rw [sessionsLoop] at h
    rw [sessionsLoop]
    by_cases hl : dates.length ≥ mc
    · rw [if_pos hl] at h
      exact absurd (congrArg Prod.snd h) (by simp)
    · rw [if_neg hl] at h
      rw [if_neg hl]
      by_cases hm : si + wk * 7 + s * m < vd.length
      · rw [dif_pos hm] at h
        rw [dif_pos hm, if_pos (isBeforeDeadline_none _)]
        by_cases hb : isBeforeDeadline (some D) (vd.get ⟨si + wk * 7 + s * m, hm⟩) = true
        · rw [if_pos hb] at h
          exact ih _ r h
        · rw [if_neg hb] at h
          have hr : dates = r := congrArg Prod.fst h
          exact hr ▸ preTrans (appendPre dates _) (sessionsLoop_acc_pre vd none mc si wk m rest _)
      · rw [dif_neg hm] at h
        rw [dif_neg hm]
        exact ih dates r h

theorem weeksLoop_mem (vd : List Int) (dl : Option Int) (mc si m : Nat) (sess : List Nat) :
    ∀ wl wk : Nat, ∀ dates : List Int,
      (∀ x ∈ dates, isBeforeDeadline dl x = true) →
      ∀ x ∈ weeksLoop vd dl mc si m sess wl wk dates, isBeforeDeadline dl x = true := by
  intro wl
  induction wl with
  | zero =>
    intro wk dates hacc x hx
    rw [weeksLoop] at hx
    exact hacc x hx
  | succ wl ih =>
    intro wk dates hacc x hx
    rw [weeksLoop] at hx
    by_cases h2 : (sessionsLoop vd dl mc si wk m sess dates).2 = true
    · rw [if_pos h2] at hx
      exact sessionsLoop_mem vd dl mc si wk m sess dates hacc x hx
    · rw [if_neg h2] at hx
      by_cases h3 : (sessionsLoop vd dl mc si wk m sess dates).1.length ≥ mc
      · rw [if_pos h3] at hx
        exact sessionsLoop_mem vd dl mc si wk m sess dates hacc x hx
      · rw [if_neg h3] at hx
        exact ih (wk + 1) _ (sessionsLoop_mem vd dl mc si wk m sess dates hacc) x hx

theorem weeksLoop_acc_pre (vd : List Int) (dl : Option Int) (mc si m : Nat) (sess : List Nat) :
    ∀ wl wk : Nat, ∀ dates : List Int, dates <+: weeksLoop vd dl mc si m sess wl wk dates := by
  intro wl
  induction wl with
  | zero => intro wk dates; rw [weeksLoop]
  | succ wl ih =>
    intro wk dates
    rw [weeksLoop]
    by_cases h2 : (sessionsLoop vd dl mc si wk m sess dates).2 = true
    · rw [if_pos h2]
      exact sessionsLoop_acc_pre vd dl mc si wk m sess dates
    · rw [if_neg h2]
      by_cases h3 : (sessionsLoop vd dl mc si wk m sess dates).1.length ≥ mc
      · rw [if_pos h3]
        exact sessionsLoop_acc_pre vd dl mc si wk m sess dates
      · rw [if_neg h3]
        exact preTrans (sessionsLoop_acc_pre vd dl mc si wk m sess dates) (ih (wk + 1) _)

theorem weeksLoop_deadline_pre (vd : List Int) (D : Int) (mc si m : Nat) (sess : List Nat) :
    ∀ wl wk : Nat, ∀ dates : List Int,
      weeksLoop vd (some D) mc si m sess wl wk dates <+:
        weeksLoop vd none mc si m sess wl wk dates := by
  intro wl
  induction wl with
  | zero => intro wk dates; rw [weeksLoop, weeksLoop]
  | succ wl ih =>
    intro wk dates
    rw [weeksLoop, weeksLoop]
    have hnone2 : (sessionsLoop vd none mc si wk m sess dates).2 = false :=
      sessionsLoop_none_not_hard vd mc si wk m sess dates
    rw [if_neg
      (show ¬(sessionsLoop vd none mc si wk m sess dates).2 = true by simp [hnone2])]
    by_cases h2 : (sessionsLoop vd (some D) mc si wk m sess dates).2 = true
    · rw [if_pos h2]
      have hpre : (sessionsLoop vd (some D) mc si wk m sess dates).1 <+:
          (sessionsLoop vd none mc si wk m sess dates).1 := by
        apply sessionsLoop_hard_pre vd D mc si wk m sess dates
        rw [← h2]
      by_cases h3 : (sessionsLoop vd none mc si wk m sess dates).1.length ≥ mc
      · rw [if_pos h3]
        exact hpre
      · rw [if_neg h3]
        exact preTrans hpre (weeksLoop_acc_pre vd none mc si m sess wl (wk + 1) _)
    · rw [if_neg h2]
      have heq : sessionsLoop vd (some D) mc si wk m sess dates =
          sessionsLoop vd none mc si wk m sess dates :=
        sessionsLoop_not_hard_eq vd D mc si wk m sess dates (by simpa using h2)
      rw [heq]
      by_cases h3 : (sessionsLoop vd none mc si wk m sess dates).1.length ≥ mc
      · rw [if_pos h3, if_pos h3]
      · rw [if_neg h3, if_neg h3]
        exact ih (wk + 1) _

/-- A cadence string the generator's branch chain recognizes
(freeTimeDetector.js:322, 332, 345, 362). -/
def recognizedCadence (freq : String) : Prop :=
  (freq = "daily" ∨ freq = "every day") ∨ (freq = "weekly" ∨ freq = "every week") ∨
    (strIncludes freq "3" = true ∧ strIncludes freq "week" = true) ∨
    (strIncludes freq "2" = true ∧ strIncludes freq "week" = true)

instance (freq : String) : Decidable (recognizedCadence freq) := by
  unfold recognizedCadence
  infer_instance

theorem jsIndexOf_mem (l : List Int) (a : Int) (h : a ∈ l) : ∃ i, jsIndexOf l a = some i := by
  induction l with
  | nil => simp at h
  | cons x t ih =>
    rw [jsIndexOf]
    by_cases hx : x = a
    · rw [if_pos hx]
      exact ⟨0, rfl⟩
    · rw [if_neg hx]
      rcases List.mem_cons.mp h with h1 | h1
      · exact absurd h1.symm hx
      · obtain ⟨i, hi⟩ := ih h1
        exact ⟨i + 1, by rw [hi]; rfl⟩

/-- C2 as stated (for *every* cadence) is false: an unrecognized cadence
string such as `"monthly"` falls through to the one-shot branch, which pushes
the first date without any deadline check — here date 5 against deadline 3. -/
theorem getRecurringDates_deadline_counterexample :
    ∃ d ∈ getRecurringDates (some "monthly") 5 [5] (some 3) 100, 3 < d := by
  decide

/-- C2 amended: for the *recognized* cadences (daily, weekly, 3x/week,
2x/week) and a first date that occurs in the valid-date list, every date the
Recurring Date Generator produces is on or before the inclusive deadline day,
and the produced sequence is a prefix of what the generator would produce
without the deadline — the first occurrence past the deadline stops
generation, dropping (not substituting) the remainder.  An absent or
unrecognized cadence, or a first date missing from the list, instead returns
the first date unchecked (see the counterexample and C10). -/
theorem getRecurringDates_deadline_inclusive (f : String) (firstDate : Int)
    (validDates : List Int) (D : Int) (maxCount : Nat)
    (hrec : recognizedCadence (jsToLower f))
    (hmem : firstDate ∈ validDates) :
    (∀ d ∈ getRecurringDates (some f) firstDate validDates (some D) maxCount, d ≤ D) ∧
      getRecurringDates (some f) firstDate validDates (some D) maxCount <+:
        getRecurringDates (some f) firstDate validDates none maxCount := by
  obtain ⟨i, hi⟩ := jsIndexOf_mem validDates firstDate hmem
  unfold getRecurringDates
  split
  · rename_i heq
    cases heq
  · rename_i f' heq
    injection heq with hf
    subst hf
    split
    · rename_i heq2
      rw [heq2] at hi
      cases hi
    · rename_i startIndex heq2
      by_cases h1 : jsToLower f = "daily" ∨ jsToLower f = "every day"
      · rw [if_pos h1, if_pos h1]
        refine ⟨fun d hd => ?_, dailyLoop_deadline_pre validDates D maxCount startIndex⟩
        exact (isBeforeDeadline_some_iff D d).mp
          (dailyLoop_mem_before validDates (some D) maxCount startIndex d hd)
      · rw [if_neg h1, if_neg h1]
        by_cases h2 : jsToLower f = "weekly" ∨ jsToLower f = "every week"
        · rw [if_pos h2, if_pos h2]
          refine ⟨fun d hd => ?_, weeklyLoop_deadline_pre validDates D maxCount startIndex⟩
          exact (isBeforeDeadline_some_iff D d).mp
            (weeklyLoop_mem_before validDates (some D) maxCount startIndex d hd)
        · rw [if_neg h2, if_neg h2]
          by_cases h3 : strIncludes (jsToLower f) "3" = true ∧ strIncludes (jsToLower f) "week" = true
          · rw [if_pos h3, if_pos h3]
            refine ⟨fun d hd => ?_,
              weeksLoop_deadline_pre validDates D maxCount startIndex 2 [0, 1, 2]
                (ceilNat maxCount 3) 0 []⟩
            refine (isBeforeDeadline_some_iff D d).mp ?_
            exact weeksLoop_mem validDates (some D) maxCount startIndex 2 [0, 1, 2]
              (ceilNat maxCount 3) 0 [] (by simp) d hd
          · rw [if_neg h3, if_neg h3]
            by_cases h4 :
                strIncludes (jsToLower f) "2" = true ∧ strIncludes (jsToLower f) "week" = true
            · rw [if_pos h4, if_pos h4]
              refine ⟨fun d hd => ?_,
                weeksLoop_deadline_pre validDates D maxCount startIndex 3 [0, 1]
                  (ceilNat maxCount 2) 0 []⟩
              refine (isBeforeDeadline_some_iff D d).mp ?_
              exact weeksLoop_mem validDates (some D) maxCount startIndex 3 [0, 1]
                (ceilNat maxCount 2) 0 [] (by simp) d hd
            · exfalso
              unfold recognizedCadence at hrec
              rcases hrec with h | h | h | h
              · exact h1 h
              · exact h2 h
              · exact h3 h
              · exact h4 h

/-- Witness for C2 (amended): daily cadence, valid dates `[0, 1]`, deadline
day 0 — the generator returns `[0]`, within the deadline and a prefix of the
deadline-free run `[0, 1]`. -/
theorem getRecurringDates_deadline_inclusive_witness :
    recognizedCadence (jsToLower "daily") ∧ (0 : Int) ∈ ([0, 1] : List Int) ∧
      ((∀ d ∈ getRecurringDates (some "daily") 0 [0, 1] (some 0) 100, d ≤ 0) ∧
        getRecurringDates (some "daily") 0 [0, 1] (some 0) 100 <+:
          getRecurringDates (some "daily") 0 [0, 1] none 100) :=
  ⟨by decide, by decide,
    getRecurringDates_deadline_inclusive "daily" 0 [0, 1] 0 100 (by decide) (by decide)⟩

/-- C10: a recognized cadence whose first chosen date already lies past the
inclusive deadline yields the *empty* sequence (no fallback to the first
date); an absent or unrecognized cadence always yields exactly
`[firstDate]`; and the Session Count Planner nevertheless guarantees a count
of at least 1, so the generator can return fewer dates (even zero) than the
planner's count. -/
theorem getRecurringDates_empty_vs_fallback :
    getRecurringDates (some "daily") 9 [9, 10, 11] (some 5) 100 = [] ∧
      (∀ (firstDate : Int) (validDates : List Int) (deadline : Option Int) (maxCount : Nat),
        getRecurringDates none firstDate validDates deadline maxCount = [firstDate]) ∧
      (∀ (f : String) (firstDate : Int) (validDates : List Int) (deadline : Option Int)
          (maxCount : Nat), ¬ recognizedCadence (jsToLower f) →
        getRecurringDates (some f) firstDate validDates deadline maxCount = [firstDate]) ∧
      (∀ (goal : Goal) (firstDate : Int), 1 ≤ calculateEventCount goal firstDate) := by
  refine ⟨by decide, fun _ _ _ _ => rfl, ?_, fun g fd => calculateEventCount_ge_one g fd⟩
  intro f firstDate validDates deadline maxCount hur
  unfold recognizedCadence at hur
  obtain ⟨h1, h234⟩ := not_or.mp hur
  obtain ⟨h2, h34⟩ := not_or.mp h234
  obtain ⟨h3, h4⟩ := not_or.mp h34
  unfold getRecurringDates
  split
  · rename_i heq
    cases heq
  · rename_i f' heq
    injection heq with hf
    subst hf
    split
    · rfl
    · rw [if_neg h1, if_neg h2, if_neg h3, if_neg h4]

/-- Witness for C10 at a concrete input: `"monthly"` is unrecognized and the
generator returns exactly the one-element list with the first date. -/
theorem getRecurringDates_empty_vs_fallback_witness :
    ¬ recognizedCadence (jsToLower "monthly") ∧
      getRecurringDates (some "monthly") 7 [] none 1 = [7] :=
  ⟨by decide, getRecurringDates_empty_vs_fallback.2.2.1 "monthly" 7 [] none 1 (by decide)⟩

/-! ## Planning entry point (`detectFreeTimeSlots`, freeTimeDetector.js:394-591) -/

/-- `getDateRange` (freeTimeDetector.js:145-156): `today, today+1, …` for
`daysAhead` days, as day numbers. -/
def getDateRange (today : Int) (daysAhead : Nat) : List Int :=
  (List.range daysAhead).map (fun i => today + (i : Int))

/-- `isWeekend` (freeTimeDetector.js:57-61): day 0 of the epoch is a Thursday,
so the weekday index is `(d + 4) mod 7` with Sunday = 0, Saturday = 6. -/
def isWeekend (d : Int) : Bool :=
  ((d + 4).emod 7 = 0) || ((d + 4).emod 7 = 6)

/-- `TIME_SLOTS` (freeTimeDetector.js:10-14), window bounds in minutes. -/
def TIME_SLOTS : String → Option (Nat × Nat)
  | "morning" => some (360, 720)
  | "afternoon" => some (720, 1080)
  | "evening" => some (1080, 1320)
  | _ => none

/-- One entry of `slotsByPreference[pref]` (freeTimeDetector.js:452-457):
the blocks of one date, already truncated to `maxSessionsPerDay`. -/
structure DaySlots where
  date : Int
  slots : List FreeBlock
deriving DecidableEq, Repr

/-- Step 7 of `detectFreeTimeSlots` (freeTimeDetector.js:437-459) for one
day-part name: run the grid search on every valid date and keep the non-empty
results, sliced to `maxSessionsPerDay`. -/
def slotsForPref (now : Int) (validDates : List Int) (pref : String) (durationMinutes : Nat)
    (calendarEvents : List CalEvent) (maxSessionsPerDay : Nat) : List DaySlots :=
  validDates.filterMap fun date =>
    match TIME_SLOTS pref with
    | none => none
    | some (s, e) =>
      if (findFreeBlocks now date pref s e durationMinutes calendarEvents).length > 0 then
        some ⟨date, (findFreeBlocks now date pref s e durationMinutes calendarEvents).take
          maxSessionsPerDay⟩
      else none

/-- Preference order (freeTimeDetector.js:464-473): the user's selections
first (in morning/afternoon/evening order), then the remaining day-parts. -/
def preferenceOrder (timeSlotsToCheck : List String) : List String :=
  let sel := (if timeSlotsToCheck.contains "morning" then ["morning"] else []) ++
    (if timeSlotsToCheck.contains "afternoon" then ["afternoon"] else []) ++
    (if timeSlotsToCheck.contains "evening" then ["evening"] else [])
  let sel2 := if sel.contains "morning" then sel else sel ++ ["morning"]
  let sel3 := if sel2.contains "afternoon" then sel2 else sel2 ++ ["afternoon"]
  if sel3.contains "evening" then sel3 else sel3 ++ ["evening"]

/-- An event of a `TimeOption` (freeTimeDetector.js:540-545). -/
structure Ev where
  date : Int
  startTime : Nat
  endTime : Nat
  durationMinutes : Nat
deriving DecidableEq, Repr

/-- Projection of a free block to a `TimeOption` event. -/
def toEv (b : FreeBlock) : Ev := ⟨b.date, b.startTime, b.endTime, b.durationMinutes⟩

/-- First available date across the preference order
(freeTimeDetector.js:476-483). -/
def firstAvailableDate (sbp : String → List DaySlots) : List String → Option Int
  | [] => none
  | pref :: rest =>
    match sbp pref with
    | [] => firstAvailableDate sbp rest
    | d :: _ => some d.date

/-- Event-building loop over the recurring dates
(freeTimeDetector.js:525-569): on a date with blocks for this day-part, add
up to `sessionsToAdd` sessions while fewer than `totalSessionsNeeded` are
collected; on a date without, fall back to the first block of another
day-part; stop once `totalSessionsNeeded` is reached. -/
def buildEvents (sbp : String → List DaySlots) (pref : String) (strategy : String)
    (maxSessionsPerDay totalSessionsNeeded : Nat) :
    List Int → List Ev → List Ev
  | [], events => events
  | date :: rest, events =>
    match (sbp pref).find? (fun s => s.date = date) with
    | some entry =>
      let sessionsToAdd := if strategy = "finish_quickly" then entry.slots.length
        else min maxSessionsPerDay entry.slots.length
      let events' := events ++
        ((entry.slots.take sessionsToAdd).take (totalSessionsNeeded - events.length)).map toEv
      if events'.length ≥ totalSessionsNeeded then events'
      else buildEvents sbp pref strategy maxSessionsPerDay totalSessionsNeeded rest events'
    | none =>
      let events' :=
        match (["morning", "afternoon", "evening"].filter (fun p => p ≠ pref)).findSome?
            (fun altPref =>
              match (sbp altPref).find? (fun s => s.date = date) with
              | some altEntry =>
                if altEntry.slots.length > 0 then (altEntry.slots.head?).map toEv else none
              | none => none) with
        | some ev => events ++ [ev]
        | none => events
      if events'.length ≥ totalSessionsNeeded then events'
      else buildEvents sbp pref strategy maxSessionsPerDay totalSessionsNeeded rest events'

/-- `str.charAt(0).toUpperCase() + str.slice(1)`. -/
def capitalize (s : String) : String :=
  match s.data with
  | [] => s
  | c :: t => String.mk (c.toUpper :: t)

/-- A `TimeOption` (freeTimeDetector.js:574-580).  `totalHours` is the exact
rational value of the source's float division by 60. -/
structure TimeOption where
  timeSlot : String
  label : String
  events : List Ev
  totalEvents : Nat
  totalHours : Rat
deriving DecidableEq, Repr

/-- The `ScheduleResult` record returned at freeTimeDetector.js:586-590. -/
structure ScheduleResult where
  timeOptions : List TimeOption
  eventCount : Int
  frequency : String
deriving DecidableEq, Repr

/-- Option-building loop over the preference order
(freeTimeDetector.js:492-582). -/
def buildOptions (sbp : String → List DaySlots) (goal : Goal) (validDates : List Int)
    (maxEventCount : Int) (maxSessionsPerDay durationMinutes : Nat) :
    List String → List TimeOption
  | [] => []
  | pref :: rest =>
    match sbp pref with
    | [] => buildOptions sbp goal validDates maxEventCount maxSessionsPerDay durationMinutes rest
    | firstDaySlot :: _ =>
      let totalSessionsNeeded : Nat :=
        if jsTruthyNat goal.session_duration && jsTruthyNat goal.target_amount then
          ceilNat (goal.target_amount.getD 0) (goal.session_duration.getD 1)
        else maxEventCount.toNat
      let events := buildEvents sbp pref (jsOrStr goal.distribution_strategy "spread_evenly")
        maxSessionsPerDay totalSessionsNeeded
        (getRecurringDates goal.frequency firstDaySlot.date validDates goal.deadline
          maxEventCount.toNat) []
      if events.length > 0 then
        ⟨pref, capitalize pref, events, events.length,
            ((events.length * durationMinutes : Nat) : Rat) / 60⟩ ::
          buildOptions sbp goal validDates maxEventCount maxSessionsPerDay durationMinutes rest
      else buildOptions sbp goal validDates maxEventCount maxSessionsPerDay durationMinutes rest

/-- `detectFreeTimeSlots` (freeTimeDetector.js:394-591).  `now` is the clock;
`today` is its civil day.  The JavaScript counters (`maxEventCount` as loop
bound, Math.ceil result) are natural numbers via `Int.toNat`, identical for
the nonnegative values the planner produces. -/
def detectFreeTimeSlots (calendarEvents : List CalEvent) (goal : Goal) (daysAhead : Nat)
    (now : Int) : ScheduleResult :=
  let durationMinutes := calculateDurationMinutes goal
  let timePreferences := if goal.time_preferences.isEmpty then ["morning", "afternoon", "evening"]
    else goal.time_preferences
  let weekendOnly := timePreferences.contains "weekend"
  let timeSlotsToCheck0 := timePreferences.filter (fun p => p ≠ "weekend")
  let timeSlotsToCheck := if timeSlotsToCheck0.isEmpty then ["morning", "afternoon", "evening"]
    else timeSlotsToCheck0
  let allDates := getDateRange (Int.fdiv now 1440) daysAhead
  let validDates := if weekendOnly then allDates.filter (fun d => isWeekend d) else allDates
  let maxSessionsPerDay := jsOrNat goal.max_sessions_per_day 1
  let sbp := fun pref =>
    slotsForPref now validDates pref durationMinutes calendarEvents maxSessionsPerDay
  let order := preferenceOrder timeSlotsToCheck
  let maxEventCount : Int :=
    match firstAvailableDate sbp order with
    | some d => calculateEventCount goal d
    | none => 1
  ⟨buildOptions sbp goal validDates maxEventCount maxSessionsPerDay durationMinutes
      (order.take 3),
    maxEventCount, jsOrStr goal.frequency "one-time"⟩

/-- C9: the planning entry point is deterministic in its explicit inputs plus
the clock — two invocations with identical `(calendarEvents, goal, horizon,
now)` return identical `ScheduleResult`s. -/
theorem detectFreeTimeSlots_deterministic (calendarEvents : List CalEvent) (goal : Goal)
    (daysAhead : Nat) (now : Int) (r1 r2 : ScheduleResult)
    (h1 : r1 = detectFreeTimeSlots calendarEvents goal daysAhead now)
    (h2 : r2 = detectFreeTimeSlots calendarEvents goal daysAhead now) :
    r1 = r2 :=
  h1.trans h2.symm

/-- Witness for C9 at a concrete input. -/
theorem detectFreeTimeSlots_deterministic_witness :
    detectFreeTimeSlots [] ⟨none, none, none, none, [], none, none, none⟩ 1 0 =
      detectFreeTimeSlots [] ⟨none, none, none, none, [], none, none, none⟩ 1 0 :=
  detectFreeTimeSlots_deterministic [] ⟨none, none, none, none, [], none, none, none⟩ 1 0 _ _
    rfl rfl

/-- C5: `distributionStrategy = finish_quickly` does **not** lift the
`maxSessionsPerDay` truncation, contrary to the claim (and to the source's
own comment "Use all available slots", freeTimeDetector.js:534-535): the
blocks were already sliced to `maxSessionsPerDay` when `slotsByPreference`
was built (freeTimeDetector.js:455), so the strategy branch is dead code.
Concretely: a daily finish-quickly goal with `maxSessionsPerDay = 1`, an
empty calendar, a 2-day horizon and 28 sessions needed schedules exactly 1
session on day 0 of its morning option, although the grid search finds 11
free morning blocks on that day. -/
theorem finish_quickly_cap_bug :
    ((detectFreeTimeSlots [] ⟨some 1, some "hour", some "daily", none, ["morning"], some 1, none,
          some "finish_quickly"⟩ 2 0).timeOptions.head?.map
        (fun o => (o.events.filter (fun e => e.date = 0)).length)) = some 1 ∧
      (findFreeBlocks 0 0 "morning" 360 720 60 []).length = 11 := by
  constructor
  · decide
  · decide

/-! ## Alternative Slot Search (`server.js`, find-slots route, lines 3044-3096) -/

/-- An alternative slot as pushed at server.js:3084-3090. -/
structure AltSlot where
  date : Int
  startTime : Nat
  endTime : Nat
  durationMinutes : Nat
  timePreference : String
deriving DecidableEq, Repr

/-- The inline `timeSlots` object of the route (server.js:3071-3075), equal to
the three day-part windows, iterated in insertion order. -/
def altTimeSlots : List (String × Nat × Nat) :=
  [("morning", 360, 720), ("afternoon", 720, 1080), ("evening", 1080, 1320)]

/-- Alternatives contributed by a single date (server.js:3077-3093): for each
of the three day-parts, up to 3 of its free blocks. -/
def altDayBlocks (now : Int) (durationMinutes : Nat) (calendarEvents : List CalEvent)
    (date : Int) : List AltSlot :=
  altTimeSlots.flatMap fun p =>
    ((findFreeBlocks now date p.1 p.2.1 p.2.2 durationMinutes calendarEvents).take 3).map
      fun slot => ⟨slot.date, slot.startTime, slot.endTime, slot.durationMinutes, p.1⟩

/-- The date loop of the alternative search (server.js:3067-3094): the
`missingSessions * 3` cap is checked only **between** dates. -/
def altLoop (now : Int) (missingSessions durationMinutes : Nat)
    (calendarEvents : List CalEvent) : List Int → List AltSlot → List AltSlot
  | [], alternatives => alternatives
  | date :: rest, alternatives =>
    if alternatives.length ≥ missingSessions * 3 then alternatives
    else altLoop now missingSessions durationMinutes calendarEvents rest
      (alternatives ++ altDayBlocks now durationMinutes calendarEvents date)

/-- The dates scanned by the alternative search (server.js:3051-3059): one
day step from `now` while within the end of the deadline day (or `now + 28`
days when the goal has no deadline). -/
def altDates (now : Int) (deadline : Option Int) : List Int :=
  (List.range ((Int.fdiv ((match deadline with
      | some dl => Int.fdiv (jsEndOfDayMs (jsParseDateOnlyMs dl)) 60000
      | none => (Int.fdiv (now + 40320) 1440) * 1440 + 1439) - now) 1440 + 1).toNat)).map
    (fun k => Int.fdiv (now + 1440 * (k : Int)) 1440)

/-- Steps 4-5 of the find-slots route (server.js:3042-3096): alternatives are
computed only when the schedule is incomplete (`sessionsFound <
sessionsNeeded && sessionsNeeded > 0`) and a first time option exists. -/
def findAlternatives (now : Int) (sessionsNeeded sessionsFound : Nat) (hasFirstOption : Bool)
    (deadline : Option Int) (durationMinutes : Nat) (calendarEvents : List CalEvent) :
    List AltSlot :=
  if (decide (sessionsFound < sessionsNeeded) && decide (sessionsNeeded > 0)) && hasFirstOption
  then
    altLoop now (sessionsNeeded - sessionsFound) durationMinutes calendarEvents
      (altDates now deadline) []
  else []

/-- The JSON response assembled at server.js:3101-3115: the primary
`timeOptions` list is passed through unchanged next to the alternatives. -/
structure FindSlotsResponse where
  timeOptions : List TimeOption
  eventCount : Int
  frequency : String
  incomplete : Bool
  sessionsNeeded : Nat
  sessionsFound : Nat
  missingSessions : Int
  alternatives : List AltSlot
deriving Repr

def buildFindSlotsResponse (result : ScheduleResult) (sessionsNeeded sessionsFound : Nat)
    (alternatives : List AltSlot) : FindSlotsResponse :=
  ⟨result.timeOptions, result.eventCount, result.frequency,
    decide (sessionsFound < sessionsNeeded) && decide (sessionsNeeded > 0),
    sessionsNeeded, sessionsFound, (sessionsNeeded : Int) - (sessionsFound : Int), alternatives⟩

theorem altDayBlocks_length_le (now : Int) (durationMinutes : Nat)
    (calendarEvents : List CalEvent) (date : Int) :
    (altDayBlocks now durationMinutes calendarEvents date).length ≤ 9 := by
  unfold altDayBlocks altTimeSlots
  simp only [List.flatMap_cons, List.flatMap_nil, List.length_append, List.length_map,
    List.length_nil]
  have h1 := List.length_take_le 3
    (findFreeBlocks now date "morning" 360 720 durationMinutes calendarEvents)
  have h2 := List.length_take_le 3
    (findFreeBlocks now date "afternoon" 720 1080 durationMinutes calendarEvents)
  have h3 := List.length_take_le 3
    (findFreeBlocks now date "evening" 1080 1320 durationMinutes calendarEvents)
  omega

theorem altLoop_length_le (now : Int) (missingSessions durationMinutes : Nat)
    (calendarEvents : List CalEvent) :
    ∀ (dates : List Int) (alts : List AltSlot),
      (altLoop now missingSessions durationMinutes calendarEvents dates alts).length ≤
        max alts.length (missingSessions * 3 + 8) := by
  intro dates
  induction dates with
  | nil => intro alts; rw [altLoop]; exact le_max_left _ _
  | cons date rest ih =>
    intro alts
    rw [altLoop]
    by_cases hl : alts.length ≥ missingSessions * 3
    · rw [if_pos hl]
      exact le_max_left _ _
    · rw [if_neg hl]
      have hday := altDayBlocks_length_le now durationMinutes calendarEvents date
      have hih := ih (alts ++ altDayBlocks now durationMinutes calendarEvents date)
      rw [List.length_append] at hih
      omega

/-- C6 as stated is false: the `3 × missing` cap is only enforced between
dates, and a single date can contribute up to 9 alternatives (3 per
day-part), so a schedule missing one session can receive 9 > 3 alternatives. -/
theorem alternatives_cap_counterexample :
    (findAlternatives 0 2 1 true (some 0) 60 []).length = 9 ∧ 3 * (2 - 1) < 9 := by
  constructor
  · decide
  · decide

/-- C6 amended: the alternative sequence's length is at most
`3 × missing + 8` (the per-date overshoot can add up to 9 blocks after the
between-dates cap check, which admits up to `3 × missing − 1`); alternatives
are produced only for an incomplete schedule with a first time option; and
the response's primary `timeOptions` list is the `ScheduleResult`'s list,
unaltered. -/
theorem alternatives_search_bounds (now : Int) (sessionsNeeded sessionsFound : Nat)
    (hasFirstOption : Bool) (deadline : Option Int) (durationMinutes : Nat)
    (calendarEvents : List CalEvent) (result : ScheduleResult) :
    (findAlternatives now sessionsNeeded sessionsFound hasFirstOption deadline durationMinutes
        calendarEvents).length ≤ (sessionsNeeded - sessionsFound) * 3 + 8 ∧
      (findAlternatives now sessionsNeeded sessionsFound hasFirstOption deadline durationMinutes
          calendarEvents ≠ [] →
        sessionsFound < sessionsNeeded ∧ 0 < sessionsNeeded ∧ hasFirstOption = true) ∧
      (buildFindSlotsResponse result sessionsNeeded sessionsFound
          (findAlternatives now sessionsNeeded sessionsFound hasFirstOption deadline
            durationMinutes calendarEvents)).timeOptions = result.timeOptions := by
  refine ⟨?_, ?_, rfl⟩
  · unfold findAlternatives
    split
    · have h := altLoop_length_le now (sessionsNeeded - sessionsFound) durationMinutes
        calendarEvents (altDates now deadline) []
      simpa using h
    · simp
  · unfold findAlternatives
    split
    · rename_i hcond
      intro _
      simp only [Bool.and_eq_true, decide_eq_true_eq] at hcond
      exact ⟨hcond.1.1, hcond.1.2, hcond.2⟩
    · intro h
      exact absurd rfl h

/-- Witness for C6 (amended) at the counterexample input: the alternative
list is non-empty, so the schedule there is indeed incomplete, and its length
respects the corrected bound. -/
theorem alternatives_search_bounds_witness :
    (findAlternatives 0 2 1 true (some 0) 60 [] ≠ []) ∧
      (1 < 2 ∧ 0 < 2 ∧ true = true) ∧
      (findAlternatives 0 2 1 true (some 0) 60 []).length ≤ (2 - 1) * 3 + 8 :=
  ⟨by decide,
    (alternatives_search_bounds 0 2 1 true (some 0) 60 [] ⟨[], 1, "daily"⟩).2.1 (by decide),
    (alternatives_search_bounds 0 2 1 true (some 0) 60 [] ⟨[], 1, "daily"⟩).1⟩

/-! ## Ad-hoc Time Request Parser (`parseTimeRequest`, server.js:1083-1201)

The parser is regex-driven; each regex of the source is embedded as an
explicit character-list matcher with JavaScript word-boundary (`\b` =
transition at `[A-Za-z0-9_]`) and leftmost-match semantics, including the
greedy `\d{1,2}` backtracking. -/

/-- JavaScript `\w`. -/
def wordChar (c : Char) : Bool := c.isAlpha || c.isDigit || c = '_'

/-- `\b` before a position, given the preceding character (if any). -/
def boundaryBefore : Option Char → Bool
  | none => true
  | some c => !wordChar c

/-- `\b` after a match, given the remaining input. -/
def afterOk : List Char → Bool
  | [] => true
  | c :: _ => !wordChar c

/-- Match of `\b<word>\b` at some position of the input. -/
def hasWordAux (w : List Char) : Option Char → List Char → Bool
  | prev, [] => boundaryBefore prev && List.isPrefixOf w [] && afterOk []
  | prev, c :: rest =>
    (boundaryBefore prev && List.isPrefixOf w (c :: rest) && afterOk ((c :: rest).drop w.length))
      || hasWordAux w (some c) rest

/-- `/\b<w>\b/.test(s)` for a word `w` made of word characters. -/
def hasWord (s w : String) : Bool := hasWordAux w.data none s.data

def digitVal (c : Char) : Nat := c.toNat - '0'.toNat

/-- Tail of `/\b(\d{1,2})(:(\d{2}))?\s*(am|pm)\b/` after the optional minutes:
skip `\s*`, read `am`/`pm`, check `\b`, and apply the source's 12-hour
adjustment (server.js:1156-1163). -/
def tryAmPmSpace (h : Nat) (l : List Char) : Option Nat :=
  match l.dropWhile (fun c => c.isWhitespace) with
  | 'a' :: 'm' :: rest => if afterOk rest then some (if h = 12 then 0 else h) else none
  | 'p' :: 'm' :: rest => if afterOk rest then some (if h = 12 then 12 else h + 12) else none
  | _ => none

/-- Optional `(:(\d{2}))?` group (greedy, with backtracking). -/
def tryAmPmTail (h : Nat) (l : List Char) : Option Nat :=
  match l with
  | ':' :: d1 :: d2 :: rest =>
    if d1.isDigit && d2.isDigit then
      match tryAmPmSpace h rest with
      | some r => some r
      | none => tryAmPmSpace h l
    else tryAmPmSpace h l
  | _ => tryAmPmSpace h l

/-- Greedy `\d{1,2}` (two digits first, then one) for the am/pm regex. -/
def tryAmPmAt : List Char → Option Nat
  | c1 :: rest1 =>
    if c1.isDigit then
      match rest1 with
      | c2 :: rest2 =>
        if c2.isDigit then
          match tryAmPmTail (10 * digitVal c1 + digitVal c2) rest2 with
          | some r => some r
          | none => tryAmPmTail (digitVal c1) rest1
        else tryAmPmTail (digitVal c1) rest1
      | [] => tryAmPmTail (digitVal c1) []
    else none
  | [] => none

def scanAmPm : Option Char → List Char → Option Nat
  | _, [] => none
  | prev, c :: rest =>
    match (if boundaryBefore prev then tryAmPmAt (c :: rest) else none) with
    | some h => some h
    | none => scanAmPm (some c) rest

/-- Adjusted hour of the first match of `/\b(\d{1,2})(:(\d{2}))?\s*(am|pm)\b/`
(server.js:1154-1164; the captured minutes are unused by the source). -/
def findAmPmTime (s : String) : Option Nat := scanAmPm none s.data

def tryH24Tail (h : Nat) (l : List Char) : Option Nat :=
  match l with
  | ':' :: d1 :: d2 :: rest =>
    if d1.isDigit && d2.isDigit && afterOk rest then some h else none
  | _ => none

def tryH24At : List Char → Option Nat
  | c1 :: rest1 =>
    if c1.isDigit then
      match rest1 with
      | c2 :: rest2 =>
        if c2.isDigit then
          match tryH24Tail (10 * digitVal c1 + digitVal c2) rest2 with
          | some r => some r
          | none => tryH24Tail (digitVal c1) rest1
        else tryH24Tail (digitVal c1) rest1
      | [] => none
    else none
  | [] => none

def scanH24 : Option Char → List Char → Option Nat
  | _, [] => none
  | prev, c :: rest =>
    match (if boundaryBefore prev then tryH24At (c :: rest) else none) with
    | some h => some h
    | none => scanH24 (some c) rest

/-- Hour of the first match of `/\b(\d{1,2}):(\d{2})\b/` (server.js:1167-1173;
the minutes are unused by the source). -/
def find24hTime (s : String) : Option Nat := scanH24 none s.data

def takeDigitsAux (acc : Nat) : List Char → Nat × List Char
  | [] => (acc, [])
  | c :: rest => if c.isDigit then takeDigitsAux (10 * acc + digitVal c) rest else (acc, c :: rest)

/-- Match of `/\bin (\d+) days?\b/` at one position (server.js:1102-1108). -/
def tryInDaysAt (l : List Char) : Option Nat :=
  match l with
  | 'i' :: 'n' :: ' ' :: rest =>
    match rest with
    | c :: _ =>
      if c.isDigit then
        match takeDigitsAux 0 rest with
        | (n, ' ' :: 'd' :: 'a' :: 'y' :: rest2) =>
          match rest2 with
          | 's' :: rest3 => if afterOk rest3 then some n else none
          | _ => if afterOk rest2 then some n else none
        | _ => none
      else none
    | [] => none
  | _ => none

def scanInDays : Option Char → List Char → Option Nat
  | _, [] => none
  | prev, c :: rest =>
    match (if boundaryBefore prev then tryInDaysAt (c :: rest) else none) with
    | some n => some n
    | none => scanInDays (some c) rest

def findInNDays (s : String) : Option Nat := scanInDays none s.data

/-- Weekday names with their `getDay()` indices (server.js:1110-1114). -/
def weekdayNames : List (String × Nat) :=
  [("monday", 1), ("tuesday", 2), ("wednesday", 3), ("thursday", 4), ("friday", 5),
    ("saturday", 6), ("sunday", 0)]

def tryWeekdayAt (l : List Char) : Option Nat :=
  weekdayNames.findSome? fun p =>
    if List.isPrefixOf p.1.data l && afterOk (l.drop p.1.length) then some p.2 else none

def scanWeekday : Option Char → List Char → Option Nat
  | _, [] => none
  | prev, c :: rest =>
    match (if boundaryBefore prev then tryWeekdayAt (c :: rest) else none) with
    | some n => some n
    | none => scanWeekday (some c) rest

def findWeekdayName (s : String) : Option Nat := scanWeekday none s.data

/-- Month abbreviations with JavaScript month indices (server.js:1127, 1136). -/
def monthNames : List (String × Nat) :=
  [("jan", 0), ("feb", 1), ("mar", 2), ("apr", 3), ("may", 4), ("jun", 5), ("jul", 6),
    ("aug", 7), ("sep", 8), ("oct", 9), ("nov", 10), ("dec", 11)]

def isLowerAlpha (c : Char) : Bool := 'a' ≤ c && c ≤ 'z'

/-- Greedy `(\d{1,2})\b` (day-of-month capture of the month-day regex). -/
def parseDayNum : List Char → Option Nat
  | d1 :: d2 :: rest =>
    if d1.isDigit then
      if d2.isDigit then
        if afterOk rest then some (10 * digitVal d1 + digitVal d2) else none
      else if afterOk (d2 :: rest) then some (digitVal d1) else none
    else none
  | [d1] => if d1.isDigit then some (digitVal d1) else none
  | [] => none

/-- Match of `/\b(jan|…|dec)[a-z]* (\d{1,2})\b/` at one position
(server.js:1125-1132), returning `(monthIndex, day)`. -/
def tryMonthDayAt (l : List Char) : Option (Nat × Nat) :=
  monthNames.findSome? fun p =>
    if List.isPrefixOf p.1.data l then
      match (l.drop p.1.length).dropWhile isLowerAlpha with
      | ' ' :: rest => (parseDayNum rest).map (fun d => (p.2, d))
      | _ => none
    else none

def scanMonthDay : Option Char → List Char → Option (Nat × Nat)
  | _, [] => none
  | prev, c :: rest =>
    match (if boundaryBefore prev then tryMonthDayAt (c :: rest) else none) with
    | some r => some r
    | none => scanMonthDay (some c) rest

def findMonthDay (s : String) : Option (Nat × Nat) := scanMonthDay none s.data

def monthPrefixAt (l : List Char) : Option Nat :=
  monthNames.findSome? fun p => if List.isPrefixOf p.1.data l then some p.2 else none

def tryDayMonth1 (d1 : Char) (rest1 : List Char) : Option (Nat × Nat) :=
  match rest1 with
  | ' ' :: rest2 => (monthPrefixAt rest2).map (fun m => (digitVal d1, m))
  | _ => none

/-- Match of `/(\d{1,2}) (jan|…|dec)[a-z]*/` at one position
(server.js:1134-1141; this regex carries no word boundaries), returning
`(day, monthIndex)`. -/
def tryDayMonthAt : List Char → Option (Nat × Nat)
  | d1 :: rest1 =>
    if d1.isDigit then
      match rest1 with
      | d2 :: rest2 =>
        if d2.isDigit then
          match rest2 with
          | ' ' :: rest3 =>
            match monthPrefixAt rest3 with
            | some m => some (10 * digitVal d1 + digitVal d2, m)
            | none => tryDayMonth1 d1 rest1
          | _ => tryDayMonth1 d1 rest1
        else tryDayMonth1 d1 rest1
      | [] => none
    else none
  | [] => none

def scanDayMonth : List Char → Option (Nat × Nat)
  | [] => none
  | c :: rest =>
    match tryDayMonthAt (c :: rest) with
    | some r => some r
    | none => scanDayMonth rest

def findDayMonth (s : String) : Option (Nat × Nat) := scanDayMonth s.data

/-- Day number of civil date `(y, m, d)` with JavaScript month index `m`
(0-based), permissive about day overflow like `new Date(y, m, d)`. -/
def daysFromCivil (y : Int) (m : Nat) (d : Nat) : Int :=
  let y' := if m ≤ 1 then y - 1 else y
  let era := Int.fdiv y' 400
  let yoe := y' - era * 400
  let mp : Int := if (m : Int) + 1 > 2 then (m : Int) + 1 - 3 else (m : Int) + 1 + 9
  let doy : Int := Int.fdiv (153 * mp + 2) 5 + (d : Int) - 1
  let doe : Int := yoe * 365 + Int.fdiv yoe 4 - Int.fdiv yoe 100 + doy
  era * 146097 + doe - 719468

/-- `getFullYear()` of the civil day `z0`. -/
def yearOfDay (z0 : Int) : Int :=
  let z := z0 + 719468
  let era := Int.fdiv z 146097
  let doe := z - era * 146097
  let yoe := Int.fdiv (doe - Int.fdiv doe 1460 + Int.fdiv doe 36524 - Int.fdiv doe 146096) 365
  let y := yoe + era * 400
  let doy := doe - (365 * yoe + Int.fdiv yoe 4 - Int.fdiv yoe 100)
  let mp := Int.fdiv (5 * doy + 2) 153
  let m0 := if mp < 10 then mp + 3 else mp - 9
  if m0 ≤ 2 then y + 1 else y

/-- Month/day literal resolution (server.js:1130-1132): this year's date,
rolled to next year when it lies before `now`. -/
def resolveMonthDay (now : Int) (m d : Nat) : Int :=
  let y := yearOfDay (Int.fdiv now 1440)
  let t := daysFromCivil y m d
  if t * 1440 < now then daysFromCivil (y + 1) m d else t

/-- `String.prototype.trim`. -/
def jsTrim (s : String) : String :=
  String.mk (((s.data.dropWhile Char.isWhitespace).reverse.dropWhile Char.isWhitespace).reverse)

/-- The record returned at server.js:1196-1200; `date` is a civil day number
and `timeRange` the `[startHour, endHour]` pair. -/
structure ParsedTimeRequest where
  date : Int
  timeRange : Nat × Nat
  isExact : Bool
deriving DecidableEq, Repr

/-- Date portion of `parseTimeRequest` (server.js:1087-1147). -/
def parseTargetDate (inputLower : String) (now : Int) : Int :=
  if hasWord inputLower "today" then Int.fdiv now 1440
  else if hasWord inputLower "tomorrow" then Int.fdiv now 1440 + 1
  else
    match findInNDays inputLower with
    | some n => Int.fdiv now 1440 + (n : Int)
    | none =>
      match findWeekdayName inputLower with
      | some dayIdx =>
        let cur := (Int.fdiv now 1440 + 4).emod 7
        let diff := (dayIdx : Int) - cur
        Int.fdiv now 1440 + (if diff ≤ 0 then diff + 7 else diff)
      | none =>
        match findMonthDay inputLower with
        | some (m, d) => resolveMonthDay now m d
        | none =>
          match findDayMonth inputLower with
          | some (d, m) => resolveMonthDay now m d
          | none => Int.fdiv now 1440

/-- Time portion of `parseTimeRequest` (server.js:1149-1194).  Note the
windows: morning `[9, 12]`, afternoon `[12, 17]`, evening `[17, 20]`,
default `[9, 18]` — these are *not* the `TIME_SLOTS` day-part windows. -/
def parseTimeWindow (inputLower : String) : (Nat × Nat) × Bool :=
  match findAmPmTime inputLower with
  | some hour => ((hour, hour + 1), true)
  | none =>
    match find24hTime inputLower with
    | some hour => ((hour, hour + 1), true)
    | none =>
      if hasWord inputLower "morning" then ((9, 12), false)
      else if hasWord inputLower "afternoon" then ((12, 17), false)
      else if hasWord inputLower "evening" then ((17, 20), false)
      else ((9, 18), false)

/-- `parseTimeRequest` (server.js:1083-1201). -/
def parseTimeRequest (input : String) (now : Int) : ParsedTimeRequest :=
  ⟨parseTargetDate (jsToLower (jsTrim input)) now,
    (parseTimeWindow (jsToLower (jsTrim input))).1,
    (parseTimeWindow (jsToLower (jsTrim input))).2⟩

/-- C7 as stated is false: the parser's day-part windows are 9–12, 12–17 and
17–20, not the DayPart windows 6–12, 12–18, 18–22; `"tomorrow afternoon"`
(clock at 09:00 of day 0) yields tomorrow's date with window `[12, 17]`,
not `12:00–18:00`. -/
theorem parseTimeRequest_afternoon_counterexample :
    (parseTimeRequest "tomorrow afternoon" 540).timeRange ≠ (12, 18) ∧
      parseTimeRequest "tomorrow afternoon" 540 =
        ⟨1, (12, 17), false⟩ := by
  constructor
  · decide
  · decide

/-- C7 amended: for a phrase with no exact clock time, the day-part words map
to the parser's own windows — morning `[9, 12]`, afternoon `[12, 17]`,
evening `[17, 20]` (checked in that order) — always with `isExact = false`;
and a phrase containing `tomorrow` (and not `today`) resolves to the day
after the clock's civil day. -/
theorem parseTimeRequest_dayparts (s : String) (now : Int)
    (h1 : findAmPmTime (jsToLower (jsTrim s)) = none)
    (h2 : find24hTime (jsToLower (jsTrim s)) = none) :
    ((hasWord (jsToLower (jsTrim s)) "morning" = true →
        (parseTimeRequest s now).timeRange = (9, 12) ∧
          (parseTimeRequest s now).isExact = false) ∧
      (hasWord (jsToLower (jsTrim s)) "morning" = false →
        hasWord (jsToLower (jsTrim s)) "afternoon" = true →
        (parseTimeRequest s now).timeRange = (12, 17) ∧
          (parseTimeRequest s now).isExact = false) ∧
      (hasWord (jsToLower (jsTrim s)) "morning" = false →
        hasWord (jsToLower (jsTrim s)) "afternoon" = false →
        hasWord (jsToLower (jsTrim s)) "evening" = true →
        (parseTimeRequest s now).timeRange = (17, 20) ∧
          (parseTimeRequest s now).isExact = false)) ∧
      (hasWord (jsToLower (jsTrim s)) "today" = false →
        hasWord (jsToLower (jsTrim s)) "tomorrow" = true →
        (parseTimeRequest s now).date = Int.fdiv now 1440 + 1) := by
  refine ⟨⟨?_, ?_, ?_⟩, ?_⟩
  · intro hm
    constructor <;> simp [parseTimeRequest, parseTimeWindow, h1, h2, hm]
  · intro hm ha
    constructor <;> simp [parseTimeRequest, parseTimeWindow, h1, h2, hm, ha]
  · intro hm ha he
    constructor <;> simp [parseTimeRequest, parseTimeWindow, h1, h2, hm, ha, he]
  · intro ht htm
    simp [parseTimeRequest, parseTargetDate, ht, htm]

/-- Witness for C7 (amended) at `"tomorrow afternoon"`, clock 09:00 day 0. -/
theorem parseTimeRequest_dayparts_witness :
    (findAmPmTime (jsToLower (jsTrim "tomorrow afternoon")) = none ∧
        find24hTime (jsToLower (jsTrim "tomorrow afternoon")) = none ∧
        hasWord (jsToLower (jsTrim "tomorrow afternoon")) "morning" = false ∧
        hasWord (jsToLower (jsTrim "tomorrow afternoon")) "afternoon" = true) ∧
      ((parseTimeRequest "tomorrow afternoon" 540).timeRange = (12, 17) ∧
        (parseTimeRequest "tomorrow afternoon" 540).isExact = false) ∧
      (parseTimeRequest "tomorrow afternoon" 540).date = Int.fdiv 540 1440 + 1 :=
  ⟨⟨by decide, by decide, by decide, by decide⟩,
    (parseTimeRequest_dayparts "tomorrow afternoon" 540 (by decide) (by decide)).1.2.1
      (by decide) (by decide),
    (parseTimeRequest_dayparts "tomorrow afternoon" 540 (by decide) (by decide)).2
      (by decide) (by decide)⟩
